import Mathlib

/-!
# Verification of the iVAE training script (`main.py`)

This file gives a shallow embedding of the single source file `main.py` of the
iVAE repository, as an event-trace semantics of its `__main__` block, and
proves/refutes the frozen specification claims against it.

Modelling conventions:
* Python ints that are non-negative in all reachable states are `Nat`;
  Python `a % b` with `b = 0` raises `ZeroDivisionError`, modelled by an
  explicit guard producing an `Err` value.
* Float-valued quantities (ELBO, performance metrics, learning rate) are
  modelled as exact rationals `ℚ`; the claims under verification are purely
  structural (which value is backpropagated/logged, when events fire), so no
  floating-point rounding behaviour is relied upon.
* Side effects (seeding, file writes, optimizer calls, tensorboard writes)
  are recorded as an ordered list of `Ev` events.
* Python's `int(args.max_iter / 5)` (true division then truncation toward
  zero) is modelled as the natural-number division `maxIter / 5`; the two
  agree on the whole range where the float quotient is exact enough
  (`max_iter` far below 2^52), which covers every bound used in the claims
  (`< 5`, `>= 5`).
* The library modules `lib.data`, `lib.utils`, `lib.metrics`, `lib.models`
  are not part of the provided source; their observable behaviour is
  modelled from the spec via oracles (`Env`) and a minimal `LoggerState`,
  each marked `Modelled from the spec:` in its doc comment.
-/

namespace IVAESpec

/-- The model selected in `main.py`; the source constructs `iVAE`
(`ModularIVAE` and `ConvolutionalIVAEforMNIST` are commented out), but the
training-loop body dispatches on `isinstance(model, iVAE) or
isinstance(model, ModularIVAE)`, so we keep the kind as a parameter. -/
inductive ModelKind where
  | iVAE
  | modularIVAE
  | convMNIST
deriving DecidableEq, Repr

/-- The command-line arguments as parsed by `argparse` (before the hardcoded
overrides of lines 50-53 of `main.py`). Fields mirror the `add_argument`
calls; store-true flags are `Bool`, optional values are `Option`. -/
structure Args where
  file : Option String := none
  dataArgs : Option String := none
  batchSize : Nat := 16
  epochs : Nat := 20
  maxIter : Option Nat := none
  hiddenDim : Nat := 50
  depth : Nat := 3
  lr : ℚ := 1/10000
  seed : Nat := 1
  cuda : Bool := false
  preload : Bool := false
  anneal : Bool := false
  noLog : Bool := false
  logFreq : Nat := 25
deriving DecidableEq, Repr

/-- Lines 50-53 of `main.py`: immediately after parsing, the script
overwrites `args.cuda = True`, `args.anneal = True`, `args.preload = True`
and `args.file = 'data/mnist.npz'`. -/
def applyOverrides (a : Args) : Args :=
  { a with cuda := true, anneal := true, preload := true,
           file := some "data/mnist.npz" }

/-- Python's `'mnist' in s` substring test, via `splitOn`: the substring
occurs iff splitting on it yields more than one piece. -/
def containsMnist (s : String) : Bool :=
  (s.splitOn "mnist").length != 1

/-- Python's `str(n).zfill(3)`: decimal rendering left-padded with zeros to
width 3. -/
def zfill3 (n : Nat) : String :=
  let s := toString n
  if s.length < 3 then String.mk (List.replicate (3 - s.length) '0') ++ s
  else s

/-- Errors the script can raise along the modelled paths, tagged with the
`main.py` source line that raises. `zeroDiv 147` is `it % args.log_freq`
with a zero `--log-freq`; `zeroDiv 153` is `it % int(args.max_iter / 5)`
with `max_iter < 5`; `nameError 159` is `model.prior_params(u)` with `u`
never bound (empty train loader). -/
inductive Err where
  | zeroDiv (line : Nat)
  | nameError (line : Nat)
deriving DecidableEq, Repr

/-- Observable events of a run, in program order. -/
inductive Ev where
  | seedTorch (n : Nat)
  | seedNumpy (n : Nat)
  | deviceSelect (cuda : Bool)
  | loadData (file : String) (preload : Bool)
  | buildModel (kind : ModelKind)
  | loggerCreate (path : String)
  | writerCreate (path : String)
  | annealEv (n maxIter it : Nat)
  | zeroGrad (it : Nat)
  | cudaCopy (it : Nat)
  | forward (it : Nat)
  | backward (it : Nat) (v : ℚ)
  | optStep (it : Nat)
  | logUpdate (it : Nat) (key : String) (v : ℚ)
  | loggerLogEv (it : Nat)
  | addScalar (it : Nat) (tag : String) (v : ℚ)
  | schedStep (it : Nat) (v : ℚ)
  | checkpointEv (folder : String) (expId it : Nat)
  | savePng (path : String) (rows cols nImages : Nat)
  | writerClose
  | addMetadata
  | saveJson (path : String)
  | saveNpz (path : String)
deriving DecidableEq, Repr

/-- Modelled from the spec: `lib.utils.Logger` ("metric logging"). Missing
from `src/`. For each registered key (`'elbo'` and `'perf'`, lines 110-111)
it accumulates `update`d values since the last `log()`; `log()` appends
their aggregate (modelled as the mean) to the per-key list of logged values
and clears the running buffer; `get_last` reads the most recent logged
value. Logged lists are kept most-recent-first. -/
structure LoggerState where
  elboRunning : List ℚ := []
  perfRunning : List ℚ := []
  elboLogs : List ℚ := []
  perfLogs : List ℚ := []
deriving DecidableEq, Repr

/-- Mean of a list of rationals (0 on the empty list). -/
def qmean (xs : List ℚ) : ℚ := xs.sum / (xs.length : ℚ)

/-- Modelled from the spec: `Logger.update(key, value)` appends to the
running buffer of `key`. -/
def loggerUpdate (lg : LoggerState) (key : String) (v : ℚ) : LoggerState :=
  if key = "elbo" then { lg with elboRunning := v :: lg.elboRunning }
  else if key = "perf" then { lg with perfRunning := v :: lg.perfRunning }
  else lg

/-- Modelled from the spec: `Logger.log()` aggregates each key's running
buffer into its logged list and clears the buffers. -/
def loggerLog (lg : LoggerState) : LoggerState :=
  { elboRunning := [], perfRunning := [],
    elboLogs := qmean lg.elboRunning :: lg.elboLogs,
    perfLogs := qmean lg.perfRunning :: lg.perfLogs }

/-- Modelled from the spec: `Logger.get_last(key)` returns the most recently
logged value of `key` (0 if nothing was logged yet). -/
def loggerGetLast (lg : LoggerState) (key : String) : ℚ :=
  if key = "elbo" then lg.elboLogs.headD 0
  else if key = "perf" then lg.perfLogs.headD 0
  else 0

/-- Modelled from the spec: observable characteristics of the library
objects missing from `src/` — the train loader (`lib.data.DataLoaderGPU` /
`DataLoader`), the logger id, and the numeric values produced by the
framework at each iteration. `L` is `len(train_loader)`; `batchSizeOf it`
is the number of rows of the batch consumed at iteration `it`; `elboOf it`
is the scalar value `model.elbo` returns there; `mccOf`/`mseOf` are the two
possible performance metrics. -/
structure Env where
  L : Nat
  N : Nat
  expId : Nat
  elboOf : Nat → ℚ
  mccOf : Nat → ℚ
  mseOf : Nat → ℚ
  batchSizeOf : Nat → Nat

/-- The configuration the training loop runs with: the (overridden)
arguments plus the environment oracles and the effective `max_iter`. -/
structure Cfg where
  file : String
  cuda : Bool
  preload : Bool
  anneal : Bool
  noLog : Bool
  logFreq : Nat
  maxIter : Nat
  modelKind : ModelKind
  env : Env

/-- Mutable state of the training loop: the iteration counter `it`
(line 115), the figure counter `c` (line 116), and the logger. `it > 0`
also records whether any batch has ever run, i.e. whether the Python names
`x, u, z, elbo, z_est, x_recon` are bound. -/
structure St where
  it : Nat := 0
  c : Nat := 0
  lg : LoggerState := {}
deriving DecidableEq, Repr

/-- Whether the `isinstance(model, iVAE) or isinstance(model, ModularIVAE)`
test of lines 122 and 130 succeeds. -/
def isIVAElike : ModelKind → Bool
  | .iVAE => true
  | .modularIVAE => true
  | .convMNIST => false

/-- The value whose gradient is propagated at iteration `it` (lines
130-135): `elbo.mul(-1).backward()` for iVAE-like models, `elbo.backward()`
otherwise. -/
def bpVal (cfg : Cfg) (it : Nat) : ℚ :=
  if isIVAElike cfg.modelKind then -(cfg.env.elboOf it) else cfg.env.elboOf it

/-- The performance value computed at iteration `it` (lines 140-144):
`mcc` unless `'mnist' in args.file`, else the MSE reconstruction loss. -/
def perfVal (cfg : Cfg) (it : Nat) : ℚ :=
  if containsMnist cfg.file then cfg.env.mseOf it else cfg.env.mccOf it

/-- Events of the straight-line part of the batch body, lines 122-145:
annealing call (iVAE-like models only), `optimizer.zero_grad()`, the
CPU-to-GPU copy (only when `args.cuda and not args.preload`), the forward
pass `model.elbo(x, u)`, the backward pass on `bpVal`, `optimizer.step()`,
and the two `logger.update` calls (`'elbo'` always receives
`-elbo.item()`, line 138, regardless of the model kind). -/
def batchPre (cfg : Cfg) (it : Nat) : List Ev :=
  (if isIVAElike cfg.modelKind then [.annealEv cfg.env.N cfg.maxIter it] else [])
  ++ [.zeroGrad it]
  ++ (if cfg.cuda && !cfg.preload then [.cudaCopy it] else [])
  ++ [.forward it, .backward it (bpVal cfg it), .optStep it,
      .logUpdate it "elbo" (-(cfg.env.elboOf it)),
      .logUpdate it "perf" (perfVal cfg it)]

/-- The logger state after the two `logger.update` calls of lines 138
and 145. -/
def lgUpd (cfg : Cfg) (it : Nat) (lg : LoggerState) : LoggerState :=
  loggerUpdate (loggerUpdate lg "elbo" (-(cfg.env.elboOf it)))
    "perf" (perfVal cfg it)

/-- Events of the periodic-logging block, lines 147-151: when
`it % args.log_freq == 0`, `logger.log()` runs, then the two tensorboard
`add_scalar` writes and `scheduler.step(logger.get_last('elbo'))`, all
reading the freshly logged values. `lg1` is the logger state at line 147. -/
def logBlockEvs (cfg : Cfg) (it : Nat) (lg1 : LoggerState) : List Ev :=
  if it % cfg.logFreq = 0 then
    [.loggerLogEv it,
     .addScalar it "data/performance" (loggerGetLast (loggerLog lg1) "perf"),
     .addScalar it "data/elbo" (loggerGetLast (loggerLog lg1) "elbo"),
     .schedStep it (loggerGetLast (loggerLog lg1) "elbo")]
  else []

/-- Events of the checkpoint block, line 153-155: when
`it % int(args.max_iter / 5) == 0 and not args.no_log`, a checkpoint is
written under `ckpt/` (`TORCH_CHECKPOINT_FOLDER`). -/
def ckptEvs (cfg : Cfg) (it : Nat) : List Ev :=
  if it % (cfg.maxIter / 5) = 0 && !cfg.noLog then
    [.checkpointEv "ckpt/" cfg.env.expId it]
  else []

/-- One pass through the body of `for _, (x, u, z) in enumerate(train_loader)`
(lines 120-155 of `main.py`), for iteration counter `it` (already
incremented, line 121). Returns the events emitted, the logger state after
the body, and the error if the body raised. Event emission is ordered as in
the source; an error cuts the body short after the events already emitted:
`it % args.log_freq` with `log_freq = 0` raises at line 147 before the
logging block, and `it % int(args.max_iter / 5)` with `max_iter < 5`
raises at line 153 (the `and not args.no_log` is short-circuit and comes
after the modulus, so `--no-log` does not prevent the raise). -/
def batchBody (cfg : Cfg) (it : Nat) (lg : LoggerState) :
    List Ev × LoggerState × Option Err :=
  let lg1 := lgUpd cfg it lg
  if cfg.logFreq = 0 then (batchPre cfg it, lg1, some (.zeroDiv 147))
  else
    let lg2 := if it % cfg.logFreq = 0 then loggerLog lg1 else lg1
    if cfg.maxIter / 5 = 0 then
      (batchPre cfg it ++ logBlockEvs cfg it lg1, lg2, some (.zeroDiv 153))
    else
      (batchPre cfg it ++ logBlockEvs cfg it lg1 ++ ckptEvs cfg it, lg2, none)

/-- The loop state after one batch body: `it` incremented (line 121) and the
logger advanced; the figure counter `c` is untouched by the inner loop. -/
def nextSt (cfg : Cfg) (st : St) : St :=
  { st with it := st.it + 1, lg := (batchBody cfg (st.it + 1) st.lg).2.1 }

/-- `k` successive batch-body iterations (the `for` loop of line 120 runs
`len(train_loader)` of them per epoch). The iteration counter is incremented
at the start of each body (line 121); an error aborts the remaining
iterations. Returns (events, final state, error?). -/
def runBatches (cfg : Cfg) : Nat → St → List Ev × St × Option Err
  | 0, st => ([], st, none)
  | k + 1, st =>
    let bb := batchBody cfg (st.it + 1) st.lg
    match bb.2.2 with
    | some e => (bb.1, nextSt cfg st, some e)
    | none =>
      let r := runBatches cfg k (nextSt cfg st)
      (bb.1 ++ r.1, r.2.1, r.2.2)

/-- The output directory `'out/exp' + str(exp_id)` (lines 177-178) with the
trailing separator used by the `savefig` format strings (lines 180, 201). -/
def outDir (expId : Nat) : String :=
  "out/exp" ++ toString expId ++ "/"

/-- The per-epoch plotting block (lines 157-203 of `main.py`): iff
`args.file == 'data/mnist.npz'`, sample images and reconstructions are
plotted on 4x4 grids and saved as
`out/exp{id}/{c:03}_samples.png` and `out/exp{id}/{c:03}_recons.png`,
incrementing `c` after each save. The arrays plotted are `[:16]` slices of
the last batch's sample/reconstruction tensors, so each grid holds
`min 16 b` images where `b` is that batch's size. If no batch ever ran
(`it = 0`), line 159 references the unbound name `u` and raises. -/
def plotBlock (cfg : Cfg) (it c : Nat) : List Ev × Nat × Option Err :=
  if cfg.file = "data/mnist.npz" then
    if it = 0 then ([], c, some (.nameError 159))
    else
      let nImg := min 16 (cfg.env.batchSizeOf it)
      ([.savePng (outDir cfg.env.expId ++ (zfill3 c ++ "_samples.png")) 4 4 nImg,
        .savePng (outDir cfg.env.expId ++ (zfill3 (c + 1) ++ "_recons.png"))
          4 4 nImg], c + 2, none)
  else ([], c, none)

/-- One iteration of the `while it < args.max_iter` loop body (lines
119-207): a full pass over the train loader followed by the plotting
block. -/
def epochStep (cfg : Cfg) (st : St) : List Ev × St × Option Err :=
  let r := runBatches cfg cfg.env.L st
  match r.2.2 with
  | some e => (r.1, r.2.1, some e)
  | none =>
    let p := plotBlock cfg r.2.1.it r.2.1.c
    (r.1 ++ p.1, { r.2.1 with c := p.2.1 }, p.2.2)

/-- How a run of the training loop ends: the `while` condition became false
(`done`), an exception propagated (`err`), or the supplied fuel ran out
with the condition still true (`fuelOut` — used to express
non-termination). -/
inductive Outcome where
  | done
  | err (e : Err)
  | fuelOut
deriving DecidableEq, Repr

/-- The training loop `while it < args.max_iter:` (line 118), fuelled by the
number of `while`-iterations (epochs) still allowed. -/
def runLoop (cfg : Cfg) : Nat → St → List Ev × St × Outcome
  | 0, st => if st.it < cfg.maxIter then ([], st, .fuelOut) else ([], st, .done)
  | fuel + 1, st =>
    if st.it < cfg.maxIter then
      let r := epochStep cfg st
      match r.2.2 with
      | some e => (r.1, r.2.1, .err e)
      | none =>
        let r2 := runLoop cfg fuel r.2.1
        (r.1 ++ r2.1, r2.2.1, r2.2.2)
    else ([], st, .done)

/-- The loop configuration `__main__` actually builds: overridden args, the
model constructed at line 92 (an `iVAE`), and the effective `max_iter`
(line 88: `len(train_loader) * args.epochs` when the flag is absent). -/
def mkCfg (a : Args) (env : Env) : Cfg :=
  { file := a.file.getD ""
    cuda := a.cuda
    preload := a.preload
    anneal := a.anneal
    noLog := a.noLog
    logFreq := a.logFreq
    maxIter := a.maxIter.getD (env.L * a.epochs)
    modelKind := .iVAE
    env := env }

/-- The tensorboard run directory name built at lines 107-108:
`runs/exp{id}_{batch}_{maxIter}_{lr}_{hidden}_{depth}_{anneal}`. The float
rendering of `lr` is abstracted as `toString` of the rational. -/
def tbSuffix (a : Args) (maxIter : Nat) (expId : Nat) : String :=
  "exp" ++ toString expId ++ "_" ++ toString a.batchSize ++ "_"
    ++ toString maxIter ++ "_" ++ toString a.lr ++ "_"
    ++ toString a.hiddenDim ++ "_" ++ toString a.depth ++ "_"
    ++ (if a.anneal then "True" else "False")

def tbRunName (a : Args) (maxIter : Nat) (expId : Nat) : String :=
  "runs/" ++ tbSuffix a maxIter expId

/-- The whole `__main__` block of `main.py` as an event trace: module-level
`torch.manual_seed(42)` (line 18), argument parsing plus the hardcoded
overrides (lines 48-53), seeding with `args.seed` (lines 62-63), device
selection (line 72), data loading (lines 76-87; `args.preload` is forced
true, so the `DataLoaderGPU` branch is taken), model construction (line
92), logger and tensorboard writer creation (lines 105-109), the training
loop, `writer.close()` (line 212) and the `no_log`-gated metadata/JSON/npz
saves (lines 213-216). `fuel` bounds the number of epochs simulated. -/
def mainRun (raw : Args) (env : Env) (fuel : Nat) : List Ev × St × Outcome :=
  let a := applyOverrides raw
  let cfg := mkCfg a env
  let pre : List Ev :=
    [.seedTorch 42, .seedTorch a.seed, .seedNumpy a.seed,
     .deviceSelect a.cuda,
     .loadData (a.file.getD "") a.preload,
     .buildModel .iVAE,
     .loggerCreate "log/",
     .writerCreate (tbRunName a cfg.maxIter env.expId)]
  let r := runLoop cfg fuel {}
  let post : List Ev :=
    match r.2.2 with
    | .err _ => []
    | .fuelOut => []
    | .done =>
      [.writerClose]
      ++ (if !a.noLog then [.addMetadata, .saveJson "log/", .saveNpz "log/"]
          else [])
  (pre ++ r.1 ++ post, r.2.1, r.2.2)

/-! ## Helper predicates and basic lemmas about the batch body -/

/-- The four "core" optimizer-facing events of one training batch:
`optimizer.zero_grad()`, the forward pass, the backward pass, and
`optimizer.step()`. -/
def isCoreEv : Ev → Bool
  | .zeroGrad _ => true
  | .forward _ => true
  | .backward _ _ => true
  | .optStep _ => true
  | _ => false

lemma filter_core_batchPre (cfg : Cfg) (it : Nat) :
    (batchPre cfg it).filter isCoreEv
      = [.zeroGrad it, .forward it, .backward it (bpVal cfg it), .optStep it] := by
  unfold batchPre
  split <;> split <;> rfl

lemma filter_core_logBlockEvs (cfg : Cfg) (it : Nat) (lg1 : LoggerState) :
    (logBlockEvs cfg it lg1).filter isCoreEv = [] := by
  unfold logBlockEvs
  split <;> rfl

lemma filter_core_ckptEvs (cfg : Cfg) (it : Nat) :
    (ckptEvs cfg it).filter isCoreEv = [] := by
  unfold ckptEvs
  split <;> rfl

lemma batchBody_fst (cfg : Cfg) (it : Nat) (lg : LoggerState) :
    (batchBody cfg it lg).1
      = if cfg.logFreq = 0 then batchPre cfg it
        else if cfg.maxIter / 5 = 0 then
          batchPre cfg it ++ logBlockEvs cfg it (lgUpd cfg it lg)
        else
          batchPre cfg it ++ logBlockEvs cfg it (lgUpd cfg it lg)
            ++ ckptEvs cfg it := by
  unfold batchBody
  split_ifs <;> rfl

lemma batchBody_lg (cfg : Cfg) (it : Nat) (lg : LoggerState) :
    (batchBody cfg it lg).2.1
      = if cfg.logFreq ≠ 0 ∧ it % cfg.logFreq = 0 then
          loggerLog (lgUpd cfg it lg)
        else lgUpd cfg it lg := by
  unfold batchBody
  split_ifs with h1 h2 h3 <;> simp_all

lemma batchBody_err (cfg : Cfg) (it : Nat) (lg : LoggerState) :
    (batchBody cfg it lg).2.2
      = if cfg.logFreq = 0 then some (.zeroDiv 147)
        else if cfg.maxIter / 5 = 0 then some (.zeroDiv 153)
        else none := by
  unfold batchBody
  split_ifs <;> rfl

lemma batchBody_err_none (cfg : Cfg) (it : Nat) (lg : LoggerState)
    (hq : cfg.logFreq ≠ 0) (hm : 5 ≤ cfg.maxIter) :
    (batchBody cfg it lg).2.2 = none := by
  rw [batchBody_err]
  have h5 : cfg.maxIter / 5 ≠ 0 := by
    have := Nat.one_le_div_iff (by norm_num : 0 < 5) |>.mpr hm
    omega
  simp [hq, h5]

lemma backward_mem_batchPre (cfg : Cfg) (it : Nat) (v : ℚ) :
    Ev.backward it v ∈ batchPre cfg it ↔ v = bpVal cfg it := by
  unfold batchPre
  split <;> split <;> simp

lemma backward_not_mem_logBlockEvs (cfg : Cfg) (it it' : Nat) (v : ℚ)
    (lg1 : LoggerState) : Ev.backward it v ∉ logBlockEvs cfg it' lg1 := by
  unfold logBlockEvs
  split <;> simp

lemma backward_not_mem_ckptEvs (cfg : Cfg) (it it' : Nat) (v : ℚ) :
    Ev.backward it v ∉ ckptEvs cfg it' := by
  unfold ckptEvs
  split <;> simp

lemma logUpdate_elbo_mem_batchPre (cfg : Cfg) (it : Nat) (v : ℚ) :
    Ev.logUpdate it "elbo" v ∈ batchPre cfg it ↔ v = -(cfg.env.elboOf it) := by
  unfold batchPre
  split <;> split <;> simp

lemma logUpdate_not_mem_logBlockEvs (cfg : Cfg) (it it' : Nat) (k : String)
    (v : ℚ) (lg1 : LoggerState) :
    Ev.logUpdate it k v ∉ logBlockEvs cfg it' lg1 := by
  unfold logBlockEvs
  split <;> simp

lemma logUpdate_not_mem_ckptEvs (cfg : Cfg) (it it' : Nat) (k : String)
    (v : ℚ) : Ev.logUpdate it k v ∉ ckptEvs cfg it' := by
  unfold ckptEvs
  split <;> simp

/-- Claim C2: each training batch performs exactly one
zero-grad/forward/backward/step cycle, in that order, with no retry: the
core optimizer events of one batch body are exactly
`[zero_grad, forward, backward, step]`, in all branches (including the
ones that subsequently raise). -/
theorem claim_C2_single_optimizer_step (cfg : Cfg) (it : Nat)
    (lg : LoggerState) :
    ((batchBody cfg it lg).1).filter isCoreEv
      = [.zeroGrad it, .forward it, .backward it (bpVal cfg it),
         .optStep it] := by
  rw [batchBody_fst]
  split_ifs <;>
    simp [List.filter_append, filter_core_batchPre, filter_core_logBlockEvs,
      filter_core_ckptEvs]

/-- Claim C3: for an iVAE or ModularIVAE model, the quantity backpropagated
at each iteration is the negated ELBO returned by `model.elbo`
(`elbo.mul(-1).backward()`, line 132), and the value recorded in the logger
under `'elbo'` is `-elbo.item()` (line 138); both uniquely so. -/
theorem claim_C3_backprop_negated_elbo (cfg : Cfg) (it : Nat)
    (lg : LoggerState)
    (h : cfg.modelKind = .iVAE ∨ cfg.modelKind = .modularIVAE) :
    Ev.backward it (-(cfg.env.elboOf it)) ∈ (batchBody cfg it lg).1
    ∧ (∀ v, Ev.backward it v ∈ (batchBody cfg it lg).1 →
        v = -(cfg.env.elboOf it))
    ∧ Ev.logUpdate it "elbo" (-(cfg.env.elboOf it)) ∈ (batchBody cfg it lg).1
    ∧ (∀ v, Ev.logUpdate it "elbo" v ∈ (batchBody cfg it lg).1 →
        v = -(cfg.env.elboOf it)) := by
  have hlike : isIVAElike cfg.modelKind = true := by
    rcases h with h | h <;> rw [h] <;> rfl
  have hbp : bpVal cfg it = -(cfg.env.elboOf it) := by
    unfold bpVal
    rw [hlike]
    simp
  rw [batchBody_fst]
  split_ifs <;>
    simp [backward_mem_batchPre, backward_not_mem_logBlockEvs,
      backward_not_mem_ckptEvs, logUpdate_elbo_mem_batchPre,
      logUpdate_not_mem_logBlockEvs, logUpdate_not_mem_ckptEvs, hbp]

/-- Concrete instantiation of `claim_C3_backprop_negated_elbo`. -/
def envT : Env :=
  { L := 3, N := 10, expId := 7,
    elboOf := fun it => (it : ℚ), mccOf := fun _ => 2, mseOf := fun _ => 3,
    batchSizeOf := fun _ => 16 }

def cfgT : Cfg := mkCfg (applyOverrides { maxIter := some 7, logFreq := 2 }) envT

theorem claim_C3_witness :
    (cfgT.modelKind = .iVAE ∨ cfgT.modelKind = .modularIVAE)
    ∧ (Ev.backward 1 (-(cfgT.env.elboOf 1)) ∈ (batchBody cfgT 1 {}).1
       ∧ (∀ v, Ev.backward 1 v ∈ (batchBody cfgT 1 {}).1 →
           v = -(cfgT.env.elboOf 1))
       ∧ Ev.logUpdate 1 "elbo" (-(cfgT.env.elboOf 1)) ∈ (batchBody cfgT 1 {}).1
       ∧ (∀ v, Ev.logUpdate 1 "elbo" v ∈ (batchBody cfgT 1 {}).1 →
           v = -(cfgT.env.elboOf 1))) :=
  ⟨Or.inl rfl, claim_C3_backprop_negated_elbo cfgT 1 {} (Or.inl rfl)⟩

lemma loggerLogEv_not_mem_batchPre (cfg : Cfg) (it it' : Nat) :
    Ev.loggerLogEv it ∉ batchPre cfg it' := by
  unfold batchPre
  split <;> split <;> simp

lemma addScalar_not_mem_batchPre (cfg : Cfg) (it it' : Nat) (tag : String)
    (v : ℚ) : Ev.addScalar it tag v ∉ batchPre cfg it' := by
  unfold batchPre
  split <;> split <;> simp

lemma schedStep_not_mem_batchPre (cfg : Cfg) (it it' : Nat) (v : ℚ) :
    Ev.schedStep it v ∉ batchPre cfg it' := by
  unfold batchPre
  split <;> split <;> simp

lemma loggerLogEv_not_mem_ckptEvs (cfg : Cfg) (it it' : Nat) :
    Ev.loggerLogEv it ∉ ckptEvs cfg it' := by
  unfold ckptEvs
  split <;> simp

lemma addScalar_not_mem_ckptEvs (cfg : Cfg) (it it' : Nat) (tag : String)
    (v : ℚ) : Ev.addScalar it tag v ∉ ckptEvs cfg it' := by
  unfold ckptEvs
  split <;> simp

lemma schedStep_not_mem_ckptEvs (cfg : Cfg) (it it' : Nat) (v : ℚ) :
    Ev.schedStep it v ∉ ckptEvs cfg it' := by
  unfold ckptEvs
  split <;> simp

lemma loggerLogEv_mem_logBlockEvs (cfg : Cfg) (it : Nat) (lg1 : LoggerState) :
    Ev.loggerLogEv it ∈ logBlockEvs cfg it lg1 ↔ it % cfg.logFreq = 0 := by
  unfold logBlockEvs
  split <;> simp_all

lemma addScalar_perf_mem_logBlockEvs (cfg : Cfg) (it : Nat)
    (lg1 : LoggerState) (v : ℚ) :
    Ev.addScalar it "data/performance" v ∈ logBlockEvs cfg it lg1
      ↔ it % cfg.logFreq = 0 ∧ v = loggerGetLast (loggerLog lg1) "perf" := by
  unfold logBlockEvs
  split <;> simp_all

lemma addScalar_elbo_mem_logBlockEvs (cfg : Cfg) (it : Nat)
    (lg1 : LoggerState) (v : ℚ) :
    Ev.addScalar it "data/elbo" v ∈ logBlockEvs cfg it lg1
      ↔ it % cfg.logFreq = 0 ∧ v = loggerGetLast (loggerLog lg1) "elbo" := by
  unfold logBlockEvs
  split <;> simp_all

lemma schedStep_mem_logBlockEvs (cfg : Cfg) (it : Nat) (lg1 : LoggerState)
    (v : ℚ) :
    Ev.schedStep it v ∈ logBlockEvs cfg it lg1
      ↔ it % cfg.logFreq = 0 ∧ v = loggerGetLast (loggerLog lg1) "elbo" := by
  unfold logBlockEvs
  split <;> simp_all

/-- Claim C4: within one training iteration `it ≥ 1`, `logger.log()`, the
two tensorboard scalar writes, and the scheduler step all occur iff
`--log-freq` divides `it`, and the scheduler is stepped with the last
logged elbo value (the head of the logger's elbo log after this
iteration). -/
theorem claim_C4_periodic_logging (cfg : Cfg) (it : Nat) (lg : LoggerState)
    (h1 : 1 ≤ it) :
    (Ev.loggerLogEv it ∈ (batchBody cfg it lg).1 ↔ cfg.logFreq ∣ it)
    ∧ ((∃ v, Ev.addScalar it "data/performance" v ∈ (batchBody cfg it lg).1)
        ↔ cfg.logFreq ∣ it)
    ∧ ((∃ v, Ev.addScalar it "data/elbo" v ∈ (batchBody cfg it lg).1)
        ↔ cfg.logFreq ∣ it)
    ∧ ((∃ v, Ev.schedStep it v ∈ (batchBody cfg it lg).1)
        ↔ cfg.logFreq ∣ it)
    ∧ (∀ v, Ev.schedStep it v ∈ (batchBody cfg it lg).1 →
        v = loggerGetLast ((batchBody cfg it lg).2.1) "elbo") := by
  rw [batchBody_fst, batchBody_lg]
  by_cases hq : cfg.logFreq = 0
  · have hdvd : ¬ cfg.logFreq ∣ it := by
      rw [hq]
      intro hd
      rw [Nat.zero_dvd] at hd
      omega
    simp [hq, hdvd, loggerLogEv_not_mem_batchPre, addScalar_not_mem_batchPre,
      schedStep_not_mem_batchPre]
    omega
  · have hdvd : cfg.logFreq ∣ it ↔ it % cfg.logFreq = 0 :=
      Nat.dvd_iff_mod_eq_zero
    by_cases hmod : it % cfg.logFreq = 0
    · have hc : cfg.logFreq ≠ 0 ∧ it % cfg.logFreq = 0 := ⟨hq, hmod⟩
      rw [if_pos hc]
      split_ifs with h5 <;>
        simp [hq, hmod, hdvd, loggerLogEv_not_mem_batchPre,
          addScalar_not_mem_batchPre, schedStep_not_mem_batchPre,
          loggerLogEv_not_mem_ckptEvs, addScalar_not_mem_ckptEvs,
          schedStep_not_mem_ckptEvs, loggerLogEv_mem_logBlockEvs,
          addScalar_perf_mem_logBlockEvs, addScalar_elbo_mem_logBlockEvs,
          schedStep_mem_logBlockEvs]
    · rw [if_neg (by tauto)]
      split_ifs with h5 <;>
        simp [hq, hmod, hdvd, loggerLogEv_not_mem_batchPre,
          addScalar_not_mem_batchPre, schedStep_not_mem_batchPre,
          loggerLogEv_not_mem_ckptEvs, addScalar_not_mem_ckptEvs,
          schedStep_not_mem_ckptEvs, loggerLogEv_mem_logBlockEvs,
          addScalar_perf_mem_logBlockEvs, addScalar_elbo_mem_logBlockEvs,
          schedStep_mem_logBlockEvs]

/-- Concrete instantiation of `claim_C4_periodic_logging`. -/
theorem claim_C4_witness :
    1 ≤ 2
    ∧ ((Ev.loggerLogEv 2 ∈ (batchBody cfgT 2 {}).1 ↔ cfgT.logFreq ∣ 2)
       ∧ ((∃ v, Ev.addScalar 2 "data/performance" v ∈ (batchBody cfgT 2 {}).1)
           ↔ cfgT.logFreq ∣ 2)
       ∧ ((∃ v, Ev.addScalar 2 "data/elbo" v ∈ (batchBody cfgT 2 {}).1)
           ↔ cfgT.logFreq ∣ 2)
       ∧ ((∃ v, Ev.schedStep 2 v ∈ (batchBody cfgT 2 {}).1)
           ↔ cfgT.logFreq ∣ 2)
       ∧ (∀ v, Ev.schedStep 2 v ∈ (batchBody cfgT 2 {}).1 →
           v = loggerGetLast ((batchBody cfgT 2 {}).2.1) "elbo")) :=
  ⟨by norm_num, claim_C4_periodic_logging cfgT 2 {} (by norm_num)⟩

/-! ## Step lemmas for the loop functions -/

lemma runBatches_zero (cfg : Cfg) (st : St) :
    runBatches cfg 0 st = ([], st, none) := rfl

lemma runBatches_succ_of_err (cfg : Cfg) (k : Nat) (st : St) (e : Err)
    (hb : (batchBody cfg (st.it + 1) st.lg).2.2 = some e) :
    runBatches cfg (k + 1) st
      = ((batchBody cfg (st.it + 1) st.lg).1, nextSt cfg st, some e) := by
  simp only [runBatches]
  rw [hb]

lemma runBatches_succ_of_ok (cfg : Cfg) (k : Nat) (st : St)
    (hb : (batchBody cfg (st.it + 1) st.lg).2.2 = none) :
    runBatches cfg (k + 1) st
      = ((batchBody cfg (st.it + 1) st.lg).1
          ++ (runBatches cfg k (nextSt cfg st)).1,
         (runBatches cfg k (nextSt cfg st)).2.1,
         (runBatches cfg k (nextSt cfg st)).2.2) := by
  simp only [runBatches]
  rw [hb]

lemma epochStep_of_err (cfg : Cfg) (st : St) (e : Err)
    (hb : (runBatches cfg cfg.env.L st).2.2 = some e) :
    epochStep cfg st
      = ((runBatches cfg cfg.env.L st).1,
         (runBatches cfg cfg.env.L st).2.1, some e) := by
  simp only [epochStep]
  rw [hb]

lemma epochStep_of_ok (cfg : Cfg) (st : St)
    (hb : (runBatches cfg cfg.env.L st).2.2 = none) :
    epochStep cfg st
      = ((runBatches cfg cfg.env.L st).1
          ++ (plotBlock cfg (runBatches cfg cfg.env.L st).2.1.it
                (runBatches cfg cfg.env.L st).2.1.c).1,
         { (runBatches cfg cfg.env.L st).2.1 with
             c := (plotBlock cfg (runBatches cfg cfg.env.L st).2.1.it
                     (runBatches cfg cfg.env.L st).2.1.c).2.1 },
         (plotBlock cfg (runBatches cfg cfg.env.L st).2.1.it
            (runBatches cfg cfg.env.L st).2.1.c).2.2) := by
  simp only [epochStep]
  rw [hb]

lemma runLoop_zero_ge (cfg : Cfg) (st : St) (h : ¬ st.it < cfg.maxIter) :
    runLoop cfg 0 st = ([], st, .done) := by
  simp only [runLoop]
  rw [if_neg h]

lemma runLoop_succ_ge (cfg : Cfg) (fuel : Nat) (st : St)
    (h : ¬ st.it < cfg.maxIter) :
    runLoop cfg (fuel + 1) st = ([], st, .done) := by
  simp only [runLoop]
  rw [if_neg h]

lemma runLoop_succ_lt_of_err (cfg : Cfg) (fuel : Nat) (st : St) (e : Err)
    (h : st.it < cfg.maxIter) (he : (epochStep cfg st).2.2 = some e) :
    runLoop cfg (fuel + 1) st
      = ((epochStep cfg st).1, (epochStep cfg st).2.1, .err e) := by
  simp only [runLoop]
  rw [if_pos h, he]

lemma runLoop_succ_lt_of_ok (cfg : Cfg) (fuel : Nat) (st : St)
    (h : st.it < cfg.maxIter) (he : (epochStep cfg st).2.2 = none) :
    runLoop cfg (fuel + 1) st
      = ((epochStep cfg st).1
          ++ (runLoop cfg fuel (epochStep cfg st).2.1).1,
         (runLoop cfg fuel (epochStep cfg st).2.1).2.1,
         (runLoop cfg fuel (epochStep cfg st).2.1).2.2) := by
  simp only [runLoop]
  rw [if_pos h, he]

lemma mainRun_eq (raw : Args) (env : Env) (fuel : Nat) :
    mainRun raw env fuel
      = ([.seedTorch 42, .seedTorch raw.seed, .seedNumpy raw.seed,
          .deviceSelect true,
          .loadData "data/mnist.npz" true,
          .buildModel .iVAE,
          .loggerCreate "log/",
          .writerCreate (tbRunName (applyOverrides raw)
            (mkCfg (applyOverrides raw) env).maxIter env.expId)]
          ++ (runLoop (mkCfg (applyOverrides raw) env) fuel {}).1
          ++ (match (runLoop (mkCfg (applyOverrides raw) env) fuel {}).2.2 with
              | .err _ => []
              | .fuelOut => []
              | .done =>
                [.writerClose]
                ++ (if !raw.noLog then
                      [.addMetadata, .saveJson "log/", .saveNpz "log/"]
                    else [])),
         (runLoop (mkCfg (applyOverrides raw) env) fuel {}).2.1,
         (runLoop (mkCfg (applyOverrides raw) env) fuel {}).2.2) := rfl

/-! ## No-error runs: iteration counting -/

lemma nextSt_it (cfg : Cfg) (st : St) : (nextSt cfg st).it = st.it + 1 := rfl

lemma nextSt_c (cfg : Cfg) (st : St) : (nextSt cfg st).c = st.c := rfl

lemma runBatches_ok (cfg : Cfg) (hq : cfg.logFreq ≠ 0)
    (hm : 5 ≤ cfg.maxIter) :
    ∀ (k : Nat) (st : St),
      (runBatches cfg k st).2.2 = none
      ∧ (runBatches cfg k st).2.1.it = st.it + k
      ∧ (runBatches cfg k st).2.1.c = st.c := by
  intro k
  induction k with
  | zero =>
    intro st
    simp [runBatches_zero]
  | succ n ih =>
    intro st
    have hb := batchBody_err_none cfg (st.it + 1) st.lg hq hm
    rw [runBatches_succ_of_ok cfg n st hb]
    rcases ih (nextSt cfg st) with ⟨h1, h2, h3⟩
    refine ⟨h1, ?_, ?_⟩
    · rw [h2, nextSt_it]
      omega
    · rw [h3, nextSt_c]

lemma plotBlock_err (cfg : Cfg) (it c : Nat) :
    (plotBlock cfg it c).2.2
      = if cfg.file = "data/mnist.npz" ∧ it = 0 then some (.nameError 159)
        else none := by
  unfold plotBlock
  split_ifs with h1 h2 h3 h4 <;> first | rfl | tauto

lemma epochStep_ok (cfg : Cfg) (st : St) (hq : cfg.logFreq ≠ 0)
    (hm : 5 ≤ cfg.maxIter) (hL : 1 ≤ cfg.env.L) :
    (epochStep cfg st).2.2 = none
    ∧ (epochStep cfg st).2.1.it = st.it + cfg.env.L := by
  obtain ⟨h1, h2, h3⟩ := runBatches_ok cfg hq hm cfg.env.L st
  rw [epochStep_of_ok cfg st h1]
  refine ⟨?_, h2⟩
  rw [plotBlock_err]
  split_ifs with h
  · rcases h with ⟨-, h0⟩
    rw [h2] at h0
    omega
  · rfl

lemma runLoop_ok (cfg : Cfg) (hq : cfg.logFreq ≠ 0) (hm : 5 ≤ cfg.maxIter)
    (hL : 1 ≤ cfg.env.L) :
    ∀ (fuel : Nat) (st : St), cfg.maxIter ≤ st.it + fuel * cfg.env.L →
      (runLoop cfg fuel st).2.2 = .done
      ∧ ∃ n, n ≤ fuel
          ∧ (runLoop cfg fuel st).2.1.it = st.it + n * cfg.env.L
          ∧ cfg.maxIter ≤ st.it + n * cfg.env.L
          ∧ ∀ j, j < n → st.it + j * cfg.env.L < cfg.maxIter := by
  intro fuel
  induction fuel with
  | zero =>
    intro st h
    simp only [Nat.zero_mul, Nat.add_zero] at h
    have hge : ¬ st.it < cfg.maxIter := by omega
    rw [runLoop_zero_ge cfg st hge]
    exact ⟨rfl, 0, Nat.le_refl 0, by simp, by simpa using h,
      fun j hj => absurd hj (Nat.not_lt_zero j)⟩
  | succ f ih =>
    intro st h
    by_cases hlt : st.it < cfg.maxIter
    · have he := epochStep_ok cfg st hq hm hL
      rw [runLoop_succ_lt_of_ok cfg f st hlt he.1]
      have h' : cfg.maxIter ≤ (epochStep cfg st).2.1.it + f * cfg.env.L := by
        rw [he.2]
        rw [Nat.succ_mul] at h
        generalize f * cfg.env.L = M at h ⊢
        omega
      obtain ⟨hdone, n, hn, hit, hge2, hmin⟩ := ih _ h'
      rw [he.2] at hit hge2
      refine ⟨hdone, n + 1, by omega, ?_, ?_, ?_⟩
      · rw [hit, Nat.succ_mul]
        ring
      · rw [Nat.succ_mul]
        generalize n * cfg.env.L = M at hge2 ⊢
        omega
      · intro j hj
        cases j with
        | zero => simpa using hlt
        | succ j' =>
          have := hmin j' (by omega)
          rw [he.2] at this
          rw [Nat.succ_mul]
          generalize j' * cfg.env.L = M at this ⊢
          omega
    · rw [runLoop_succ_ge cfg f st hlt]
      exact ⟨rfl, 0, Nat.zero_le _, by simp, by simpa using Nat.le_of_not_lt hlt,
        fun j hj => absurd hj (Nat.not_lt_zero j)⟩

/-! ## Claim C8: division by zero in the checkpoint condition -/

/-- The effective `max_iter` of a run: the `--max-iter` flag when present,
else `len(train_loader) * args.epochs` (lines 88-89). -/
def effMaxIter (raw : Args) (env : Env) : Nat :=
  raw.maxIter.getD (env.L * raw.epochs)

lemma mkCfg_maxIter (raw : Args) (env : Env) :
    (mkCfg (applyOverrides raw) env).maxIter = effMaxIter raw env := rfl

/-- Claim C8: when the effective `max_iter` is positive but below 5 (and the
loader is non-empty so a first iteration runs, with a well-defined
`--log-freq`), the run of `__main__` aborts during its first training
iteration with the `ZeroDivisionError` raised by
`it % int(args.max_iter / 5)` at line 153; and whenever `max_iter >= 5`,
that checkpoint branch never raises a division-by-zero. -/
theorem claim_C8_checkpoint_div_by_zero (raw : Args) (env : Env) (fuel : Nat)
    (hf : 1 ≤ fuel) (hL : 1 ≤ env.L) (hq : 1 ≤ raw.logFreq)
    (h1 : 1 ≤ effMaxIter raw env) (h5 : effMaxIter raw env < 5) :
    ((mainRun raw env fuel).2.2 = .err (.zeroDiv 153)
      ∧ (mainRun raw env fuel).2.1.it = 1)
    ∧ ∀ (cfg : Cfg) (it : Nat) (lg : LoggerState), 5 ≤ cfg.maxIter →
        (batchBody cfg it lg).2.2 ≠ some (.zeroDiv 153) := by
  constructor
  · set cfg := mkCfg (applyOverrides raw) env with hcfg
    have hcm : cfg.maxIter = effMaxIter raw env := rfl
    have hcq : cfg.logFreq = raw.logFreq := rfl
    have hcL : cfg.env.L = env.L := rfl
    have hdiv : cfg.maxIter / 5 = 0 := by
      rw [hcm]
      exact Nat.div_eq_of_lt h5
    have herr : (batchBody cfg (({} : St).it + 1) ({} : St).lg).2.2
        = some (.zeroDiv 153) := by
      rw [batchBody_err, hdiv]
      have : cfg.logFreq ≠ 0 := by rw [hcq]; omega
      simp [this]
    obtain ⟨k, hk⟩ : ∃ k, env.L = k + 1 := ⟨env.L - 1, by omega⟩
    have hrb : (runBatches cfg cfg.env.L {}).2.2 = some (.zeroDiv 153)
        ∧ (runBatches cfg cfg.env.L {}).2.1.it = 1 := by
      rw [hcL, hk, runBatches_succ_of_err cfg k {} _ herr]
      exact ⟨rfl, rfl⟩
    have hep : (epochStep cfg {}).2.2 = some (.zeroDiv 153)
        ∧ (epochStep cfg {}).2.1.it = 1 := by
      rw [epochStep_of_err cfg {} _ hrb.1]
      exact ⟨rfl, hrb.2⟩
    obtain ⟨f, hfe⟩ : ∃ f, fuel = f + 1 := ⟨fuel - 1, by omega⟩
    have hlt : ({} : St).it < cfg.maxIter := by
      show 0 < cfg.maxIter
      rw [hcm]
      omega
    rw [mainRun_eq, hfe]
    rw [runLoop_succ_lt_of_err (mkCfg (applyOverrides raw) env) f {} _ hlt hep.1]
    exact ⟨rfl, hep.2⟩
  · intro cfg it lg hm
    rw [batchBody_err]
    have h5' : cfg.maxIter / 5 ≠ 0 := by
      have := Nat.one_le_div_iff (by norm_num : 0 < 5) |>.mpr hm
      omega
    split_ifs <;> simp_all

/-- Concrete instantiation of `claim_C8_checkpoint_div_by_zero`:
`--max-iter 2` with the mnist loader of length 3. -/
theorem claim_C8_witness :
    (1 ≤ 30 ∧ 1 ≤ envT.L ∧ 1 ≤ ({ maxIter := some 2 } : Args).logFreq
      ∧ 1 ≤ effMaxIter { maxIter := some 2 } envT
      ∧ effMaxIter { maxIter := some 2 } envT < 5)
    ∧ (((mainRun { maxIter := some 2 } envT 30).2.2 = .err (.zeroDiv 153)
        ∧ (mainRun { maxIter := some 2 } envT 30).2.1.it = 1)
       ∧ ∀ (cfg : Cfg) (it : Nat) (lg : LoggerState), 5 ≤ cfg.maxIter →
           (batchBody cfg it lg).2.2 ≠ some (.zeroDiv 153)) :=
  ⟨⟨by norm_num, by norm_num [envT], by norm_num, by norm_num [effMaxIter],
     by norm_num [effMaxIter]⟩,
   claim_C8_checkpoint_div_by_zero { maxIter := some 2 } envT 30
     (by norm_num) (by norm_num [envT]) (by norm_num)
     (by norm_num [effMaxIter]) (by norm_num [effMaxIter])⟩

/-! ## Claim C9: loop termination and iteration count -/

/-- Counterexample to claim C9 as stated: with `--max-iter 2` and a loader
of length 3 (all other flags default), the loop does not terminate at an
epoch boundary with `smallest multiple of len(train_loader) >= max_iter
= 3` iterations executed: it aborts exceptionally after exactly 1
iteration (the line-153 division by zero), and 1 is not a multiple of 3. -/
theorem claim_C9_counterexample :
    (mainRun { maxIter := some 2 } envT 30).2.1.it = 1
    ∧ (mainRun { maxIter := some 2 } envT 30).2.2 ≠ .done
    ∧ ¬ envT.L ∣ (mainRun { maxIter := some 2 } envT 30).2.1.it := by
  refine ⟨by decide, by decide, by decide⟩

/-- Claim C9, amended: in the error-free regime (`--log-freq >= 1` and
effective `max_iter >= 5`), for every non-empty train loader the loop
terminates normally at an epoch boundary, and the number of iterations
executed is the smallest multiple of `len(train_loader)` that is
`>= max_iter` (so it exceeds `max_iter` by at most `len(train_loader) - 1`);
for an empty loader with `max_iter > 0`, the loop does not run forever:
because the data file is always `'data/mnist.npz'`, the plotting block of
the first epoch raises `NameError` on the unbound `u` (line 159) and the
run terminates exceptionally. -/
theorem claim_C9_amended_termination (raw : Args) (env : Env)
    (hq : 1 ≤ raw.logFreq) (hm : 5 ≤ effMaxIter raw env) :
    (1 ≤ env.L →
      (mainRun raw env (effMaxIter raw env)).2.2 = .done
      ∧ env.L ∣ (mainRun raw env (effMaxIter raw env)).2.1.it
      ∧ effMaxIter raw env ≤ (mainRun raw env (effMaxIter raw env)).2.1.it
      ∧ (∀ m, env.L ∣ m → effMaxIter raw env ≤ m →
          (mainRun raw env (effMaxIter raw env)).2.1.it ≤ m)
      ∧ (mainRun raw env (effMaxIter raw env)).2.1.it
          < effMaxIter raw env + env.L)
    ∧ (env.L = 0 → ∀ fuel, 1 ≤ fuel →
        (mainRun raw env fuel).2.2 = .err (.nameError 159)) := by
  set cfg := mkCfg (applyOverrides raw) env with hcfg
  have hcm : cfg.maxIter = effMaxIter raw env := rfl
  have hcq : cfg.logFreq = raw.logFreq := rfl
  have hcL : cfg.env.L = env.L := rfl
  have hq' : cfg.logFreq ≠ 0 := by rw [hcq]; omega
  have hm' : 5 ≤ cfg.maxIter := by rw [hcm]; exact hm
  constructor
  · intro hL
    have hL' : 1 ≤ cfg.env.L := by rw [hcL]; exact hL
    have hcond : cfg.maxIter ≤ ({} : St).it + effMaxIter raw env * cfg.env.L := by
      rw [hcm]
      have := Nat.le_mul_of_pos_right (effMaxIter raw env) (by omega : 0 < cfg.env.L)
      simpa using this
    obtain ⟨hdone, n, -, hit, hge, hmin⟩ :=
      runLoop_ok cfg hq' hm' hL' (effMaxIter raw env) {} hcond
    simp only [show ({} : St).it = 0 from rfl, Nat.zero_add] at hit hge hmin
    rw [mainRun_eq]
    refine ⟨hdone, ?_, ?_, ?_, ?_⟩
    · rw [hit]
      exact Dvd.intro_left n (by rw [hcL])
    · rw [hit, ← hcm]
      exact hge
    · intro m hdvd hm2
      obtain ⟨q, hqq⟩ := hdvd
      rw [hit]
      have hnq : n ≤ q := by
        by_contra hlt
        have h2 := hmin q (by omega)
        rw [hcm] at h2
        rw [hqq] at hm2
        have h3 : q * cfg.env.L = env.L * q := by rw [hcL, Nat.mul_comm]
        rw [h3] at h2
        exact absurd (Nat.lt_of_lt_of_le h2 hm2) (Nat.lt_irrefl _)
      calc n * cfg.env.L ≤ q * cfg.env.L := Nat.mul_le_mul_right _ hnq
        _ = m := by rw [hqq, hcL, Nat.mul_comm]
    · cases n with
      | zero =>
        rw [hit]
        simp only [Nat.zero_mul]
        omega
      | succ s =>
        have h2 := hmin s (by omega)
        rw [hcm] at h2
        rw [hit, Nat.succ_mul, hcL]
        rw [hcL] at h2
        generalize s * env.L = M at h2 ⊢
        omega
  · intro hL0 fuel hf
    obtain ⟨f, hfe⟩ : ∃ f, fuel = f + 1 := ⟨fuel - 1, by omega⟩
    have hrb : (runBatches cfg cfg.env.L {}).2.2 = none := by
      rw [hcL, hL0, runBatches_zero]
    have hplot : (plotBlock cfg (runBatches cfg cfg.env.L {}).2.1.it
        (runBatches cfg cfg.env.L {}).2.1.c).2.2 = some (.nameError 159) := by
      rw [hcL, hL0, runBatches_zero, plotBlock_err]
      rw [if_pos ⟨rfl, rfl⟩]
    have hep : (epochStep cfg {}).2.2 = some (.nameError 159) := by
      rw [epochStep_of_ok cfg {} hrb]
      exact hplot
    have hlt : ({} : St).it < cfg.maxIter := by
      show 0 < cfg.maxIter
      omega
    rw [mainRun_eq, hfe,
      runLoop_succ_lt_of_err (mkCfg (applyOverrides raw) env) f {} _ hlt hep]

/-- Concrete instantiation of `claim_C9_amended_termination`:
`--max-iter 7 --log-freq 2` over a length-3 loader. -/
theorem claim_C9_witness :
    (1 ≤ ({ maxIter := some 7, logFreq := 2 } : Args).logFreq
      ∧ 5 ≤ effMaxIter { maxIter := some 7, logFreq := 2 } envT)
    ∧ ((1 ≤ envT.L →
        (mainRun { maxIter := some 7, logFreq := 2 } envT
            (effMaxIter { maxIter := some 7, logFreq := 2 } envT)).2.2 = .done
        ∧ envT.L ∣ (mainRun { maxIter := some 7, logFreq := 2 } envT
            (effMaxIter { maxIter := some 7, logFreq := 2 } envT)).2.1.it
        ∧ effMaxIter { maxIter := some 7, logFreq := 2 } envT
            ≤ (mainRun { maxIter := some 7, logFreq := 2 } envT
                (effMaxIter { maxIter := some 7, logFreq := 2 } envT)).2.1.it
        ∧ (∀ m, envT.L ∣ m →
            effMaxIter { maxIter := some 7, logFreq := 2 } envT ≤ m →
            (mainRun { maxIter := some 7, logFreq := 2 } envT
                (effMaxIter { maxIter := some 7, logFreq := 2 } envT)).2.1.it
              ≤ m)
        ∧ (mainRun { maxIter := some 7, logFreq := 2 } envT
              (effMaxIter { maxIter := some 7, logFreq := 2 } envT)).2.1.it
            < effMaxIter { maxIter := some 7, logFreq := 2 } envT + envT.L)
       ∧ (envT.L = 0 → ∀ fuel, 1 ≤ fuel →
           (mainRun { maxIter := some 7, logFreq := 2 } envT fuel).2.2
             = .err (.nameError 159))) :=
  ⟨⟨by norm_num, by norm_num [effMaxIter]⟩,
   claim_C9_amended_termination { maxIter := some 7, logFreq := 2 } envT
     (by norm_num) (by norm_num [effMaxIter])⟩

/-! ## Fixed output directories and the `--no-log` gate -/

/-- Every path-carrying event lands in its fixed directory: checkpoints in
`ckpt/`, the logger and its JSON/npz saves in `log/`, the tensorboard run
under `runs/`, and PNG grids under `out/exp<id>/`. -/
def SafePath (expId : Nat) : Ev → Prop
  | .checkpointEv f _ _ => f = "ckpt/"
  | .saveJson p => p = "log/"
  | .saveNpz p => p = "log/"
  | .savePng p _ _ _ => ∃ s, p = outDir expId ++ s
  | .writerCreate p => ∃ s, p = "runs/" ++ s
  | .loggerCreate p => p = "log/"
  | _ => True

/-- The event is none of the `--no-log`-gated writes: not a checkpoint, not
a JSON metric-log save, not an npz metric-log save. -/
def NoMetricSave : Ev → Prop
  | .checkpointEv _ _ _ => False
  | .saveJson _ => False
  | .saveNpz _ => False
  | _ => True

lemma safePath_batchPre (expId : Nat) (cfg : Cfg) (it : Nat) :
    ∀ e ∈ batchPre cfg it, SafePath expId e := by
  unfold batchPre
  split <;> split <;> intro e he <;> fin_cases he <;> exact trivial

lemma safePath_logBlockEvs (expId : Nat) (cfg : Cfg) (it : Nat)
    (lg1 : LoggerState) : ∀ e ∈ logBlockEvs cfg it lg1, SafePath expId e := by
  unfold logBlockEvs
  split <;> intro e he <;> fin_cases he <;> exact trivial

lemma safePath_ckptEvs (expId : Nat) (cfg : Cfg) (it : Nat) :
    ∀ e ∈ ckptEvs cfg it, SafePath expId e := by
  unfold ckptEvs
  split <;> intro e he
  · fin_cases he
    rfl
  · fin_cases he

lemma safePath_batchBody (expId : Nat) (cfg : Cfg) (it : Nat)
    (lg : LoggerState) : ∀ e ∈ (batchBody cfg it lg).1, SafePath expId e := by
  rw [batchBody_fst]
  split_ifs <;> intro e he
  · exact safePath_batchPre expId cfg it e he
  · rcases List.mem_append.mp he with h | h
    · exact safePath_batchPre expId cfg it e h
    · exact safePath_logBlockEvs expId cfg it _ e h
  · rcases List.mem_append.mp he with h | h
    · rcases List.mem_append.mp h with h2 | h2
      · exact safePath_batchPre expId cfg it e h2
      · exact safePath_logBlockEvs expId cfg it _ e h2
    · exact safePath_ckptEvs expId cfg it e h

lemma safePath_runBatches (expId : Nat) (cfg : Cfg) :
    ∀ (k : Nat) (st : St), ∀ e ∈ (runBatches cfg k st).1, SafePath expId e := by
  intro k
  induction k with
  | zero =>
    intro st e he
    rw [runBatches_zero] at he
    simp at he
  | succ n ih =>
    intro st e he
    cases hbb : (batchBody cfg (st.it + 1) st.lg).2.2 with
    | some err =>
      rw [runBatches_succ_of_err cfg n st err hbb] at he
      exact safePath_batchBody expId cfg _ _ e he
    | none =>
      rw [runBatches_succ_of_ok cfg n st hbb] at he
      rcases List.mem_append.mp he with h | h
      · exact safePath_batchBody expId cfg _ _ e h
      · exact ih _ e h

lemma safePath_plotBlock (cfg : Cfg) (it c : Nat) :
    ∀ e ∈ (plotBlock cfg it c).1, SafePath cfg.env.expId e := by
  unfold plotBlock
  split_ifs <;> intro e he <;> fin_cases he <;> exact ⟨_, rfl⟩

lemma safePath_epochStep (cfg : Cfg) (st : St) :
    ∀ e ∈ (epochStep cfg st).1, SafePath cfg.env.expId e := by
  intro e he
  cases hr : (runBatches cfg cfg.env.L st).2.2 with
  | some err =>
    rw [epochStep_of_err cfg st err hr] at he
    exact safePath_runBatches cfg.env.expId cfg _ st e he
  | none =>
    rw [epochStep_of_ok cfg st hr] at he
    rcases List.mem_append.mp he with h | h
    · exact safePath_runBatches cfg.env.expId cfg _ st e h
    · exact safePath_plotBlock cfg _ _ e h

lemma safePath_runLoop (cfg : Cfg) :
    ∀ (fuel : Nat) (st : St), ∀ e ∈ (runLoop cfg fuel st).1,
      SafePath cfg.env.expId e := by
  intro fuel
  induction fuel with
  | zero =>
    intro st e he
    by_cases h : st.it < cfg.maxIter
    · simp only [runLoop] at he
      rw [if_pos h] at he
      simp at he
    · rw [runLoop_zero_ge cfg st h] at he
      simp at he
  | succ f ih =>
    intro st e he
    by_cases h : st.it < cfg.maxIter
    · cases hep : (epochStep cfg st).2.2 with
      | some err =>
        rw [runLoop_succ_lt_of_err cfg f st err h hep] at he
        exact safePath_epochStep cfg st e he
      | none =>
        rw [runLoop_succ_lt_of_ok cfg f st h hep] at he
        rcases List.mem_append.mp he with h2 | h2
        · exact safePath_epochStep cfg st e h2
        · exact ih _ e h2
    · rw [runLoop_succ_ge cfg f st h] at he
      simp at he

lemma ckptEvs_of_noLog (cfg : Cfg) (it : Nat) (h : cfg.noLog = true) :
    ckptEvs cfg it = [] := by
  unfold ckptEvs
  rw [h]
  simp

lemma noMetricSave_batchBody (cfg : Cfg) (it : Nat) (lg : LoggerState)
    (h : cfg.noLog = true) :
    ∀ e ∈ (batchBody cfg it lg).1, NoMetricSave e := by
  have hpre : ∀ e ∈ batchPre cfg it, NoMetricSave e := by
    unfold batchPre
    split <;> split <;> intro e he <;> fin_cases he <;> exact trivial
  have hlog : ∀ lg1, ∀ e ∈ logBlockEvs cfg it lg1, NoMetricSave e := by
    intro lg1
    unfold logBlockEvs
    split <;> intro e he <;> fin_cases he <;> exact trivial
  rw [batchBody_fst]
  split_ifs <;> intro e he
  · exact hpre e he
  · rcases List.mem_append.mp he with h2 | h2
    · exact hpre e h2
    · exact hlog _ e h2
  · rw [ckptEvs_of_noLog cfg it h] at he
    rcases List.mem_append.mp he with h2 | h2
    · rcases List.mem_append.mp h2 with h3 | h3
      · exact hpre e h3
      · exact hlog _ e h3
    · simp at h2

lemma noMetricSave_runBatches (cfg : Cfg) (h : cfg.noLog = true) :
    ∀ (k : Nat) (st : St), ∀ e ∈ (runBatches cfg k st).1, NoMetricSave e := by
  intro k
  induction k with
  | zero =>
    intro st e he
    rw [runBatches_zero] at he
    simp at he
  | succ n ih =>
    intro st e he
    cases hbb : (batchBody cfg (st.it + 1) st.lg).2.2 with
    | some err =>
      rw [runBatches_succ_of_err cfg n st err hbb] at he
      exact noMetricSave_batchBody cfg _ _ h e he
    | none =>
      rw [runBatches_succ_of_ok cfg n st hbb] at he
      rcases List.mem_append.mp he with h2 | h2
      · exact noMetricSave_batchBody cfg _ _ h e h2
      · exact ih _ e h2

lemma noMetricSave_plotBlock (cfg : Cfg) (it c : Nat) :
    ∀ e ∈ (plotBlock cfg it c).1, NoMetricSave e := by
  unfold plotBlock
  split_ifs <;> intro e he <;> fin_cases he <;> exact trivial

lemma noMetricSave_epochStep (cfg : Cfg) (st : St) (h : cfg.noLog = true) :
    ∀ e ∈ (epochStep cfg st).1, NoMetricSave e := by
  intro e he
  cases hr : (runBatches cfg cfg.env.L st).2.2 with
  | some err =>
    rw [epochStep_of_err cfg st err hr] at he
    exact noMetricSave_runBatches cfg h _ st e he
  | none =>
    rw [epochStep_of_ok cfg st hr] at he
    rcases List.mem_append.mp he with h2 | h2
    · exact noMetricSave_runBatches cfg h _ st e h2
    · exact noMetricSave_plotBlock cfg _ _ e h2

lemma noMetricSave_runLoop (cfg : Cfg) (h : cfg.noLog = true) :
    ∀ (fuel : Nat) (st : St), ∀ e ∈ (runLoop cfg fuel st).1, NoMetricSave e := by
  intro fuel
  induction fuel with
  | zero =>
    intro st e he
    by_cases hlt : st.it < cfg.maxIter
    · simp only [runLoop] at he
      rw [if_pos hlt] at he
      simp at he
    · rw [runLoop_zero_ge cfg st hlt] at he
      simp at he
  | succ f ih =>
    intro st e he
    by_cases hlt : st.it < cfg.maxIter
    · cases hep : (epochStep cfg st).2.2 with
      | some err =>
        rw [runLoop_succ_lt_of_err cfg f st err hlt hep] at he
        exact noMetricSave_epochStep cfg st h e he
      | none =>
        rw [runLoop_succ_lt_of_ok cfg f st hlt hep] at he
        rcases List.mem_append.mp he with h2 | h2
        · exact noMetricSave_epochStep cfg st h e h2
        · exact ih _ e h2
    · rw [runLoop_succ_ge cfg f st hlt] at he
      simp at he

/-- Claim C6: every output of a run lands in its fixed directory (metric
logs under `log/`, tensorboard runs under `runs/`, checkpoints under
`ckpt/`, PNG grids under `out/exp<id>/`), and when `--no-log` is set no
JSON/npz metric-log saves and no checkpoint writes occur. -/
theorem claim_C6_fixed_output_dirs (raw : Args) (env : Env) (fuel : Nat) :
    (∀ e ∈ (mainRun raw env fuel).1, SafePath env.expId e)
    ∧ (raw.noLog = true →
        ∀ e ∈ (mainRun raw env fuel).1, NoMetricSave e) := by
  constructor
  · intro e he
    rw [mainRun_eq] at he
    rcases List.mem_append.mp he with h | h
    · rcases List.mem_append.mp h with h2 | h2
      · fin_cases h2
        · exact trivial
        · exact trivial
        · exact trivial
        · exact trivial
        · exact trivial
        · exact trivial
        · rfl
        · exact ⟨_, rfl⟩
      · exact safePath_runLoop (mkCfg (applyOverrides raw) env) fuel {} e h2
    · cases ho : (runLoop (mkCfg (applyOverrides raw) env) fuel {}).2.2 with
      | err e2 =>
        rw [ho] at h
        simp at h
      | fuelOut =>
        rw [ho] at h
        simp at h
      | done =>
        rw [ho] at h
        simp only [List.mem_append, List.mem_singleton] at h
        rcases h with h | h
        · rw [h]
          exact trivial
        · by_cases hn : raw.noLog <;> simp [hn] at h
          rcases h with h | h | h <;> rw [h] <;> first | exact trivial | rfl
  · intro hn e he
    rw [mainRun_eq] at he
    have hc : (mkCfg (applyOverrides raw) env).noLog = true := hn
    rcases List.mem_append.mp he with h | h
    · rcases List.mem_append.mp h with h2 | h2
      · fin_cases h2 <;> exact trivial
      · exact noMetricSave_runLoop (mkCfg (applyOverrides raw) env) hc fuel {} e h2
    · cases ho : (runLoop (mkCfg (applyOverrides raw) env) fuel {}).2.2 with
      | err e2 =>
        rw [ho] at h
        simp at h
      | fuelOut =>
        rw [ho] at h
        simp at h
      | done =>
        rw [ho] at h
        simp only [hn, Bool.not_true, List.mem_append, List.mem_singleton] at h
        rcases h with h | h
        · rw [h]
          exact trivial
        · simp at h

/-- Concrete instantiation of `claim_C6_fixed_output_dirs` with `--no-log`
set. -/
theorem claim_C6_witness :
    (∀ e ∈ (mainRun { noLog := true, maxIter := some 7 } envT 30).1,
      SafePath envT.expId e)
    ∧ (∀ e ∈ (mainRun { noLog := true, maxIter := some 7 } envT 30).1,
        NoMetricSave e) :=
  ⟨(claim_C6_fixed_output_dirs { noLog := true, maxIter := some 7 } envT 30).1,
   (claim_C6_fixed_output_dirs { noLog := true, maxIter := some 7 } envT 30).2
     rfl⟩

/-- Claim C10: `--no-log` does not suppress all logging side effects. Even
with `no_log` set, the Logger is created under `log/`, the tensorboard
writer is created under `runs/`, and within any training iteration whose
counter is a multiple of `--log-freq` the two scalar writes still occur;
only the checkpoint writes and the JSON/npz metric-log saves are
suppressed. -/
theorem claim_C10_no_log_still_logs (raw : Args) (env : Env) (fuel : Nat)
    (h : raw.noLog = true) :
    Ev.loggerCreate "log/" ∈ (mainRun raw env fuel).1
    ∧ (∃ s, Ev.writerCreate ("runs/" ++ s) ∈ (mainRun raw env fuel).1)
    ∧ (∀ e ∈ (mainRun raw env fuel).1, NoMetricSave e)
    ∧ (∀ (it : Nat) (lg : LoggerState), 1 ≤ it →
        (mkCfg (applyOverrides raw) env).logFreq ∣ it →
        (∃ v, Ev.addScalar it "data/performance" v
            ∈ (batchBody (mkCfg (applyOverrides raw) env) it lg).1)
        ∧ (∃ v, Ev.addScalar it "data/elbo" v
            ∈ (batchBody (mkCfg (applyOverrides raw) env) it lg).1)) := by
  refine ⟨?_, ?_, ?_, ?_⟩
  · rw [mainRun_eq]
    simp
  · refine ⟨tbSuffix (applyOverrides raw)
      (mkCfg (applyOverrides raw) env).maxIter env.expId, ?_⟩
    rw [mainRun_eq]
    exact List.mem_append_left _ (List.mem_append_left _ (by simp [tbRunName]))
  · intro e he
    rw [mainRun_eq] at he
    have hc : (mkCfg (applyOverrides raw) env).noLog = true := h
    rcases List.mem_append.mp he with h2 | h2
    · rcases List.mem_append.mp h2 with h3 | h3
      · fin_cases h3 <;> exact trivial
      · exact noMetricSave_runLoop (mkCfg (applyOverrides raw) env) hc fuel {} e h3
    · cases ho : (runLoop (mkCfg (applyOverrides raw) env) fuel {}).2.2 with
      | err e2 =>
        rw [ho] at h2
        simp at h2
      | fuelOut =>
        rw [ho] at h2
        simp at h2
      | done =>
        rw [ho] at h2
        simp only [h, Bool.not_true, List.mem_append, List.mem_singleton] at h2
        rcases h2 with h2 | h2
        · rw [h2]
          exact trivial
        · simp at h2
  · intro it lg h1 hdvd
    have hq' : (mkCfg (applyOverrides raw) env).logFreq ≠ 0 := by
      intro h0
      rw [h0, Nat.zero_dvd] at hdvd
      omega
    have hmod : it % (mkCfg (applyOverrides raw) env).logFreq = 0 :=
      Nat.dvd_iff_mod_eq_zero.mp hdvd
    constructor
    · refine ⟨loggerGetLast (loggerLog
        (lgUpd (mkCfg (applyOverrides raw) env) it lg)) "perf", ?_⟩
      rw [batchBody_fst, if_neg hq']
      split_ifs with h5
      · exact List.mem_append_right _
          ((addScalar_perf_mem_logBlockEvs _ it _ _).mpr ⟨hmod, rfl⟩)
      · exact List.mem_append_left _ (List.mem_append_right _
          ((addScalar_perf_mem_logBlockEvs _ it _ _).mpr ⟨hmod, rfl⟩))
    · refine ⟨loggerGetLast (loggerLog
        (lgUpd (mkCfg (applyOverrides raw) env) it lg)) "elbo", ?_⟩
      rw [batchBody_fst, if_neg hq']
      split_ifs with h5
      · exact List.mem_append_right _
          ((addScalar_elbo_mem_logBlockEvs _ it _ _).mpr ⟨hmod, rfl⟩)
      · exact List.mem_append_left _ (List.mem_append_right _
          ((addScalar_elbo_mem_logBlockEvs _ it _ _).mpr ⟨hmod, rfl⟩))

/-- Concrete instantiation of `claim_C10_no_log_still_logs`. -/
theorem claim_C10_witness :
    ({ noLog := true, maxIter := some 7 } : Args).noLog = true
    ∧ (Ev.loggerCreate "log/"
        ∈ (mainRun { noLog := true, maxIter := some 7 } envT 30).1
       ∧ (∃ s, Ev.writerCreate ("runs/" ++ s)
           ∈ (mainRun { noLog := true, maxIter := some 7 } envT 30).1)
       ∧ (∀ e ∈ (mainRun { noLog := true, maxIter := some 7 } envT 30).1,
           NoMetricSave e)
       ∧ (∀ (it : Nat) (lg : LoggerState), 1 ≤ it →
           (mkCfg (applyOverrides { noLog := true, maxIter := some 7 })
               envT).logFreq ∣ it →
           (∃ v, Ev.addScalar it "data/performance" v
               ∈ (batchBody (mkCfg (applyOverrides
                   { noLog := true, maxIter := some 7 }) envT) it lg).1)
           ∧ (∃ v, Ev.addScalar it "data/elbo" v
               ∈ (batchBody (mkCfg (applyOverrides
                   { noLog := true, maxIter := some 7 }) envT) it lg).1))) :=
  ⟨rfl, claim_C10_no_log_still_logs { noLog := true, maxIter := some 7 }
    envT 30 rfl⟩

/-- Claim C7: the first events of every run are the module-level
`torch.manual_seed(42)` followed by `torch.manual_seed(args.seed)` and
`np.random.seed(args.seed)`, and only then device selection, data loading
and model construction: both global generators are seeded from `--seed`
before any data loading or model construction, so two runs with the same
flags consume identical pseudo-random streams. -/
theorem claim_C7_seeding_precedes_loading (raw : Args) (env : Env)
    (fuel : Nat) :
    (mainRun raw env fuel).1.take 6
      = [.seedTorch 42, .seedTorch raw.seed, .seedNumpy raw.seed,
         .deviceSelect true, .loadData "data/mnist.npz" true,
         .buildModel .iVAE] := rfl

/-- Counterexample to claim C1 as stated: with no flags passed
(`cuda = preload = anneal = false`, `file = None`), the run still selects
the CUDA device and still loads `data/mnist.npz` with GPU preloading,
because lines 50-53 overwrite the parsed values. -/
theorem claim_C1_counterexample :
    ({} : Args).cuda = false ∧ ({} : Args).preload = false
    ∧ ({} : Args).anneal = false ∧ ({} : Args).file = none
    ∧ Ev.deviceSelect true ∈ (mainRun {} envT 0).1
    ∧ Ev.loadData "data/mnist.npz" true ∈ (mainRun {} envT 0).1 :=
  ⟨rfl, rfl, rfl, rfl, by decide, by decide⟩

/-- Claim C1, amended: the numeric flags (batch size, epochs, max-iter,
learning rate, seed, log-freq, no-log) configure the run as parsed, but the
`--cuda`, `--preload-gpu`, `--anneal` and `--file` flags do not: lines
50-53 overwrite them, so every run trains on GPU, preloads data on GPU,
uses annealing, and reads `data/mnist.npz`, regardless of those flags. -/
theorem claim_C1_amended_flags_overridden (raw : Args) (env : Env)
    (fuel : Nat) :
    (applyOverrides raw).cuda = true
    ∧ (applyOverrides raw).preload = true
    ∧ (applyOverrides raw).anneal = true
    ∧ (applyOverrides raw).file = some "data/mnist.npz"
    ∧ (applyOverrides raw).batchSize = raw.batchSize
    ∧ (applyOverrides raw).epochs = raw.epochs
    ∧ (applyOverrides raw).maxIter = raw.maxIter
    ∧ (applyOverrides raw).lr = raw.lr
    ∧ (applyOverrides raw).seed = raw.seed
    ∧ (applyOverrides raw).noLog = raw.noLog
    ∧ (applyOverrides raw).logFreq = raw.logFreq
    ∧ (mainRun raw env fuel).1.take 5
        = [.seedTorch 42, .seedTorch raw.seed, .seedNumpy raw.seed,
           .deviceSelect true, .loadData "data/mnist.npz" true] :=
  ⟨rfl, rfl, rfl, rfl, rfl, rfl, rfl, rfl, rfl, rfl, rfl, rfl⟩

/-! ## Claim C5: per-epoch image grids -/

lemma savePng_not_mem_batchPre (cfg : Cfg) (it : Nat) (p : String)
    (r co n : Nat) : Ev.savePng p r co n ∉ batchPre cfg it := by
  unfold batchPre
  split <;> split <;> simp

lemma savePng_not_mem_logBlockEvs (cfg : Cfg) (it : Nat) (lg1 : LoggerState)
    (p : String) (r co n : Nat) :
    Ev.savePng p r co n ∉ logBlockEvs cfg it lg1 := by
  unfold logBlockEvs
  split <;> simp

lemma savePng_not_mem_ckptEvs (cfg : Cfg) (it : Nat) (p : String)
    (r co n : Nat) : Ev.savePng p r co n ∉ ckptEvs cfg it := by
  unfold ckptEvs
  split <;> simp

lemma savePng_not_mem_batchBody (cfg : Cfg) (it : Nat) (lg : LoggerState)
    (p : String) (r co n : Nat) :
    Ev.savePng p r co n ∉ (batchBody cfg it lg).1 := by
  rw [batchBody_fst]
  split_ifs <;>
    simp [savePng_not_mem_batchPre, savePng_not_mem_logBlockEvs,
      savePng_not_mem_ckptEvs]

lemma savePng_not_mem_runBatches (cfg : Cfg) :
    ∀ (k : Nat) (st : St) (p : String) (r co n : Nat),
      Ev.savePng p r co n ∉ (runBatches cfg k st).1 := by
  intro k
  induction k with
  | zero =>
    intro st p r co n
    rw [runBatches_zero]
    simp
  | succ m ih =>
    intro st p r co n hmem
    cases hbb : (batchBody cfg (st.it + 1) st.lg).2.2 with
    | some err =>
      rw [runBatches_succ_of_err cfg m st err hbb] at hmem
      exact savePng_not_mem_batchBody cfg _ _ p r co n hmem
    | none =>
      rw [runBatches_succ_of_ok cfg m st hbb] at hmem
      rcases List.mem_append.mp hmem with h | h
      · exact savePng_not_mem_batchBody cfg _ _ p r co n h
      · exact ih _ p r co n h

/-- An environment whose loader yields batches of 8 rows: the plotted
`[:16]` slices then hold 8 images, not 16. -/
def envB : Env := { envT with L := 1, batchSizeOf := fun _ => 8 }

/-- Every `savePng` event in the list saves a grid of exactly `m` images. -/
def pngImagesAre (m : Nat) : Ev → Bool
  | .savePng _ _ _ n => n == m
  | _ => true

/-- Counterexample to claim C5 as stated: with batches of size 8 (e.g.
`--batch-size 8`), the per-epoch grids contain `min 16 8 = 8` images, not
16: the first saved grid of a `--max-iter 5 --log-freq 1` run is
`000_samples.png` with 8 images, and indeed every grid of the run has 8
images. -/
theorem claim_C5_counterexample :
    Ev.savePng (outDir 7 ++ (zfill3 0 ++ "_samples.png")) 4 4 8
        ∈ (mainRun { maxIter := some 5, logFreq := 1 } envB 6).1
    ∧ (mainRun { maxIter := some 5, logFreq := 1 } envB 6).1.all
        (pngImagesAre 8) = true :=
  ⟨by decide, by decide⟩

/-- Claim C5, amended: after each epoch, iff the data file equals
`data/mnist.npz`, exactly two 4x4 PNG grids are appended to the epoch's
events — `out/exp<id>/<c:03>_samples.png` then
`out/exp<id>/<c+1:03>_recons.png`, each holding `min 16 b` images where `b`
is the size of the epoch's last batch (16 whenever that batch has at least
16 rows) — and the counter advances by 2, so it is strictly increasing and
zero-padded; for any other data file no PNG is saved and the counter is
unchanged. -/
theorem claim_C5_amended_epoch_grids (cfg : Cfg) (st : St)
    (hq : cfg.logFreq ≠ 0) (hm : 5 ≤ cfg.maxIter) (hL : 1 ≤ cfg.env.L) :
    (cfg.file = "data/mnist.npz" →
      (epochStep cfg st).1
        = (runBatches cfg cfg.env.L st).1
          ++ [.savePng (outDir cfg.env.expId ++ (zfill3 st.c
                ++ "_samples.png")) 4 4
                (min 16 (cfg.env.batchSizeOf (st.it + cfg.env.L))),
              .savePng (outDir cfg.env.expId ++ (zfill3 (st.c + 1)
                ++ "_recons.png")) 4 4
                (min 16 (cfg.env.batchSizeOf (st.it + cfg.env.L)))]
      ∧ (epochStep cfg st).2.1.c = st.c + 2
      ∧ ∀ (p : String) (r co n : Nat),
          Ev.savePng p r co n ∉ (runBatches cfg cfg.env.L st).1)
    ∧ (cfg.file ≠ "data/mnist.npz" →
        (∀ (p : String) (r co n : Nat),
          Ev.savePng p r co n ∉ (epochStep cfg st).1)
        ∧ (epochStep cfg st).2.1.c = st.c) := by
  obtain ⟨he, hit, hc⟩ := runBatches_ok cfg hq hm cfg.env.L st
  rw [epochStep_of_ok cfg st he]
  constructor
  · intro hfile
    have hit0 : (runBatches cfg cfg.env.L st).2.1.it ≠ 0 := by
      rw [hit]
      omega
    have hplot : plotBlock cfg (runBatches cfg cfg.env.L st).2.1.it
        (runBatches cfg cfg.env.L st).2.1.c
        = ([.savePng (outDir cfg.env.expId ++ (zfill3 st.c
              ++ "_samples.png")) 4 4
              (min 16 (cfg.env.batchSizeOf (st.it + cfg.env.L))),
            .savePng (outDir cfg.env.expId ++ (zfill3 (st.c + 1)
              ++ "_recons.png")) 4 4
              (min 16 (cfg.env.batchSizeOf (st.it + cfg.env.L)))],
           st.c + 2, none) := by
      unfold plotBlock
      rw [if_pos hfile, if_neg hit0, hit, hc]
    refine ⟨?_, ?_, fun p r co n => savePng_not_mem_runBatches cfg _ st p r co n⟩
    · rw [hplot]
    · rw [hplot]
  · intro hfile
    have hplot : plotBlock cfg (runBatches cfg cfg.env.L st).2.1.it
        (runBatches cfg cfg.env.L st).2.1.c
        = ([], (runBatches cfg cfg.env.L st).2.1.c, none) := by
      unfold plotBlock
      rw [if_neg hfile]
    refine ⟨?_, ?_⟩
    · intro p r co n hmem
      rw [hplot] at hmem
      simp only [List.append_nil] at hmem
      exact savePng_not_mem_runBatches cfg _ st p r co n hmem
    · rw [hplot, hc]

/-- Concrete instantiation of `claim_C5_amended_epoch_grids`. -/
theorem claim_C5_witness :
    (cfgT.logFreq ≠ 0 ∧ 5 ≤ cfgT.maxIter ∧ 1 ≤ cfgT.env.L)
    ∧ ((cfgT.file = "data/mnist.npz" →
        (epochStep cfgT {}).1
          = (runBatches cfgT cfgT.env.L {}).1
            ++ [.savePng (outDir cfgT.env.expId ++ (zfill3 ({} : St).c
                  ++ "_samples.png")) 4 4
                  (min 16 (cfgT.env.batchSizeOf (({} : St).it + cfgT.env.L))),
                .savePng (outDir cfgT.env.expId ++ (zfill3 (({} : St).c + 1)
                  ++ "_recons.png")) 4 4
                  (min 16 (cfgT.env.batchSizeOf (({} : St).it + cfgT.env.L)))]
        ∧ (epochStep cfgT {}).2.1.c = ({} : St).c + 2
        ∧ ∀ (p : String) (r co n : Nat),
            Ev.savePng p r co n ∉ (runBatches cfgT cfgT.env.L {}).1)
       ∧ (cfgT.file ≠ "data/mnist.npz" →
          (∀ (p : String) (r co n : Nat),
            Ev.savePng p r co n ∉ (epochStep cfgT {}).1)
          ∧ (epochStep cfgT {}).2.1.c = ({} : St).c)) :=
  ⟨⟨by decide, by decide, by decide⟩,
   claim_C5_amended_epoch_grids cfgT {} (by decide) (by decide) (by decide)⟩

end IVAESpec
